import Mathlib

/-!
Verification development for the temporal-resolution and request-validation
pipeline of the voice scheduling agent (route POST /api/create-event).

Modelling conventions:
  - absolute instants are integers counting minutes since an epoch, in UTC;
  - an IANA timezone is modelled as a fixed offset in minutes east of UTC
    (the zone database is a partial map from zone names to offsets, passed
    in as a parameter; DST is outside the scope of the verified claims);
  - a luxon DateTime is an absolute instant paired with a display zone;
    luxon comparison operators compare the underlying instants;
  - a JS Date is just an absolute instant; the constructor
    new Date(y, m, d, h, min, s) interprets the components in the zone of
    the running process, so it denotes wallClock - processOffset;
  - chrono-node is zone naive: it reads the clock fields of its input in
    the local zone of the process.  Its observable behaviour, as documented
    in the source comments of the route, is modelled by ChronoIntent below;
  - JSON values are modelled by JVal; a JS object is an association list of
    fields, and property access returns the undefined value when the key is
    absent, exactly as in JS.
-/

/-- Fixed-offset model of an IANA timezone: minutes east of UTC. -/
structure Zone where
  offset : Int
deriving DecidableEq, Repr

/-- Model of a luxon DateTime: an absolute instant (minutes since the epoch,
measured in UTC) plus the zone the value is displayed in. -/
structure LDateTime where
  instant : Int
  zone    : Zone
deriving DecidableEq, Repr

/-- Wall-clock reading of a DateTime in its own zone, in minutes since the
epoch as read on a local clock. -/
def LDateTime.localClock (dt : LDateTime) : Int :=
  dt.instant + dt.zone.offset

/-- Model of luxon setZone without options: the absolute instant is kept and
only the display zone changes (the wall-clock reading shifts). -/
def LDateTime.setZone (dt : LDateTime) (z : Zone) : LDateTime :=
  ⟨dt.instant, z⟩

/-- Model of luxon setZone with keepLocalTime set: the wall-clock reading is
kept and the absolute instant is re-anchored to the new zone. -/
def setZoneKeepLocal (dt : LDateTime) (z : Zone) : LDateTime :=
  ⟨dt.instant + dt.zone.offset - z.offset, z⟩

/-- Luxon order on DateTime values compares the underlying instants
(valueOf yields the epoch offset, independently of the display zone). -/
def dtLe (a b : LDateTime) : Bool :=
  a.instant ≤ b.instant

/-- Minutes within the local day of a wall-clock reading (Euclidean mod,
always in the range 0 to 1439). -/
def minutesOfDay (t : Int) : Int :=
  t % 1440

/-- Hour component of a wall-clock reading. -/
def hourOf (t : Int) : Int :=
  minutesOfDay t / 60

/-- Minute component of a wall-clock reading. -/
def minuteOf (t : Int) : Int :=
  t % 60

/-- Index of the local calendar day of a wall-clock reading. -/
def dayIndex (t : Int) : Int :=
  t / 1440

/-- Abstract meaning of the combined date and time string handed to
chrono.parseDate.  An absolute intent denotes a fixed intended wall-clock
reading (e.g. date 2026-03-20 together with time 10:00); tomorrowAt t
denotes the string tomorrow plus a time of day of t minutes (e.g. 11 PM is
tomorrowAt 1380); unparseable covers strings no strategy recognises. -/
inductive ChronoIntent
| absolute (wall : Int)
| tomorrowAt (t : Int)
| unparseable
deriving DecidableEq, Repr

/-- Behaviour of chrono.parseDate(s, ref, forwardDate) as documented in the
route source: chrono has no timezone parameter, it reads both the reference
Date and the produced Date through the clock of the process (offset
procOffset).  For an absolute string it returns the JS Date whose
process-local reading equals the intended wall clock; for tomorrow plus a
time of day it takes the process-local day of the reference, adds one day
and sets the time of day. -/
def chronoParse (procOffset refInstant : Int) : ChronoIntent → Option Int
| .absolute w    => some (w - procOffset)
| .tomorrowAt t  =>
    some (((refInstant + procOffset) / 1440 + 1) * 1440 + t - procOffset)
| .unparseable   => none

/-- The synthetic reference moment of the route (variable tzAwareRef): the
caller-local clock components of now, rebuilt through the JS Date
constructor, which reads them in the process zone.  Its process-local
reading therefore equals the caller-local reading of now. -/
def tzAwareRef (z : Zone) (procOffset now : Int) : Int :=
  now + z.offset - procOffset

/-- The Temporal Resolver of the route: compute the synthetic reference,
parse with chrono against it, lift the JS Date into a process-zone DateTime
and reattach the caller zone with keepLocalTime (source: nowInUserTz,
tzAwareRef, chrono.parseDate, DateTime.fromJSDate(parsed).setZone(timezone,
keepLocalTime true)). -/
def resolveStart (z : Zone) (procOffset now : Int) (intent : ChronoIntent) :
    Option LDateTime :=
  (chronoParse procOffset (tzAwareRef z procOffset now) intent).map
    (fun p => setZoneKeepLocal ⟨p, ⟨procOffset⟩⟩ z)

/-- The past-time guard of the route: startDt is rejected when it is less
than or equal to DateTime.now().setZone(timezone); luxon comparison is by
instant, and now as an instant is independent of the process zone. -/
def pastGuardRejects (procOffset : Int) (z : Zone) (startDt : LDateTime)
    (now : Int) : Bool :=
  dtLe startDt (LDateTime.setZone ⟨now, ⟨procOffset⟩⟩ z)

/-- C1: round-trip law of the Temporal Resolver.  For every intended local
wall-clock reading w, every caller zone z and every process offset, the
resolver succeeds and the resolved start instant, read back as wall-clock
components in the caller zone, is exactly w — in particular the hour and
minute components are reproduced exactly, regardless of the process zone. -/
theorem temporal_resolver_round_trip (z : Zone) (procOffset now w : Int) :
    ∃ dt : LDateTime,
      resolveStart z procOffset now (.absolute w) = some dt ∧
      dt.zone = z ∧
      dt.localClock = w ∧
      hourOf dt.localClock = hourOf w ∧
      minuteOf dt.localClock = minuteOf w := by
  refine ⟨⟨w - z.offset, z⟩, ?_, rfl, ?_, ?_, ?_⟩
  · simp [resolveStart, chronoParse, setZoneKeepLocal, tzAwareRef] <;> omega
  · simp [LDateTime.localClock] <;> omega
  · simp [LDateTime.localClock, hourOf, minutesOfDay] <;> omega
  · simp [LDateTime.localClock, minuteOf] <;> omega

/-- C2: relative dates resolve against the caller calendar date.  For the
Istanbul zone (offset +180 minutes) and the intent tomorrow at 11 PM
(1380 minutes into the day), the resolver produces a start whose
caller-local reading falls on the day after the current Istanbul calendar
day, at 23:00 local (1380 minutes into the day, not 02:00), for every
process offset and every current instant. -/
theorem tomorrow_resolves_in_caller_zone (procOffset now : Int) :
    ∃ dt : LDateTime,
      resolveStart ⟨180⟩ procOffset now (.tomorrowAt 1380) = some dt ∧
      dayIndex dt.localClock = dayIndex (now + 180) + 1 ∧
      minutesOfDay dt.localClock = 1380 ∧
      hourOf dt.localClock = 23 ∧
      minuteOf dt.localClock = 0 := by
  refine ⟨⟨((now + 180) / 1440 + 1) * 1440 + 1380 - 180, ⟨180⟩⟩,
    ?_, ?_, ?_, ?_, ?_⟩
  · simp [resolveStart, chronoParse, setZoneKeepLocal, tzAwareRef] <;> omega
  · simp [LDateTime.localClock, dayIndex] <;> omega
  · simp [LDateTime.localClock, minutesOfDay] <;> omega
  · simp [LDateTime.localClock, hourOf, minutesOfDay] <;> omega
  · simp [LDateTime.localClock, minuteOf] <;> omega

/-- C3: strictness of the past-time guard.  The guard rejects exactly when
the resolved start instant is not strictly after now; a start of now plus
one minute always passes, a start of now minus one minute always fails, and
a start exactly equal to now also fails — for every timezone and every
process offset. -/
theorem past_guard_strict (procOffset : Int) (z : Zone) (now : Int) :
    (∀ startDt : LDateTime,
        pastGuardRejects procOffset z startDt now = false ↔
          now < startDt.instant) ∧
    pastGuardRejects procOffset z ⟨now + 1, z⟩ now = false ∧
    pastGuardRejects procOffset z ⟨now - 1, z⟩ now = true ∧
    pastGuardRejects procOffset z ⟨now, z⟩ now = true := by
  refine ⟨fun startDt => ?_, ?_, ?_, ?_⟩ <;>
    simp [pastGuardRejects, dtLe, LDateTime.setZone] <;> omega

/-- JSON-like value of an inbound body field.  Numbers are modelled as
integers (every verified claim uses integral numeric inputs); undefVal is the
JS undefined value, distinct from a missing key only through rlookup. -/
inductive JVal
| str (s : String)
| num (n : Int)
| boolVal (b : Bool)
| null
| undefVal
deriving DecidableEq, Repr

/-- A JS object: association list of own enumerable fields.  Lookup takes
the first matching entry, so earlier entries shadow later ones. -/
abbrev JsRecord := List (String × JVal)

/-- Presence-aware lookup: none when the key is not an own property. -/
def rlookup (r : JsRecord) (k : String) : Option JVal :=
  (r.find? (fun p => p.1 == k)).map (fun p => p.2)

/-- JS property access: reading an absent key yields undefined. -/
def jsGet (r : JsRecord) (k : String) : JVal :=
  (rlookup r k).getD .undefVal

/-- First element of toolCallList in a Vapi envelope: its id field and its
function.arguments object, either possibly absent. -/
structure ToolCall where
  id        : Option String
  arguments : Option JsRecord
deriving DecidableEq, Repr

/-- Inbound body after shape detection.  The env constructor stands for
exactly the bodies satisfying the isVapiEnvelope test of the route
(message.type equal to tool-calls and a nonempty toolCallList), carrying
the first tool call and message.call.metadata when present; flat stands
for every other body, used as-is. -/
inductive Body
| flat (r : JsRecord)
| env (first : ToolCall) (meta : Option JsRecord)
deriving DecidableEq, Repr

/-- Extraction of toolCallId (source: toolCallList zero id when the
envelope was detected, undefined otherwise). -/
def toolCallIdOf : Body → Option String
| .flat _        => none
| .env first _   => first.id

/-- Extraction of rawArgs (source: function arguments with a fallback to
the empty object, or the body itself when flat). -/
def rawArgsOf : Body → JsRecord
| .flat r        => r
| .env first _   => first.arguments.getD []

/-- Extraction of callMeta (source: message.call.metadata with a fallback
to the empty object, or the empty object when flat). -/
def callMetaOf : Body → JsRecord
| .flat _        => []
| .env _ m       => m.getD []

/-- The merge of the route: the object literal whose sessionId and
timezone fields read callMeta by property access, overlaid by the spread
of rawArgs, whose own keys (any value, undefined included) win.  With
first-match lookup this is rawArgs in front of the two metadata fields. -/
def mergedOf (b : Body) : JsRecord :=
  rawArgsOf b ++
    [("sessionId", jsGet (callMetaOf b) "sessionId"),
     ("timezone",  jsGet (callMetaOf b) "timezone")]

/-- Hexadecimal digit test, by character code. -/
def isHexDigit (c : Char) : Bool :=
  (48 ≤ c.toNat && c.toNat ≤ 57) || (97 ≤ c.toNat && c.toNat ≤ 102) ||
  (65 ≤ c.toNat && c.toNat ≤ 70)

/-- Whitespace trimming on both ends, the semantics of String.trim and of
the zod trim transform, stated over the character list. -/
def strTrim (s : String) : String :=
  ⟨((s.data.dropWhile Char.isWhitespace).reverse.dropWhile
      Char.isWhitespace).reverse⟩

/-- Syntactic UUID test of the zod string uuid validator: 8-4-4-4-12 hex
digits with dashes, version digit 1 to 5, variant nibble 8, 9, a or b. -/
def isUUIDString (s : String) : Bool :=
  let cs := s.data
  cs.length == 36 &&
  (List.range 36).all (fun i =>
    let c := cs.getD i ' '
    if i == 8 || i == 13 || i == 18 || i == 23 then c == '-'
    else if i == 14 then c == '1' || c == '2' || c == '3' || c == '4' || c == '5'
    else if i == 19 then
      c == '8' || c == '9' || c == 'a' || c == 'b' || c == 'A' || c == 'B'
    else isHexDigit c)

/-- Zod check for field sessionId: a string that is a valid UUID. -/
def sessionIdErrs (v : JVal) : List String :=
  match v with
  | .str s => if isUUIDString s then [] else ["sessionId must be a valid UUID"]
  | .undefVal => ["Required"]
  | _      => ["Expected string"]

/-- Zod check for field name: a string, nonempty and at most 100 chars
(checked before the trailing trim transform). -/
def nameErrs (v : JVal) : List String :=
  match v with
  | .str s =>
      (if s.length < 1 then ["name is required"] else []) ++
      (if s.length > 100 then ["name must be 100 characters or fewer"] else [])
  | .undefVal => ["Required"]
  | _      => ["Expected string"]

/-- Zod check for field date: a nonempty string (format is left to the
Temporal Resolver). -/
def dateErrs (v : JVal) : List String :=
  match v with
  | .str s => if s.length < 1 then ["date is required"] else []
  | .undefVal => ["Required"]
  | _      => ["Expected string"]

/-- Zod check for field time: a nonempty string. -/
def timeErrs (v : JVal) : List String :=
  match v with
  | .str s => if s.length < 1 then ["time is required"] else []
  | .undefVal => ["Required"]
  | _      => ["Expected string"]

/-- Zod check for field timezone: a string recognised by the runtime zone
database (IANAZone.isValidZone). -/
def timezoneErrs (zones : String → Option Zone) (v : JVal) : List String :=
  match v with
  | .str s =>
      if (zones s).isSome then []
      else ["timezone must be a valid IANA timezone"]
  | .undefVal => ["Required"]
  | _      => ["Expected string"]

/-- Zod check for field durationMins: a number (integral in this model)
between 5 and 240 inclusive. -/
def durationErrs (v : JVal) : List String :=
  match v with
  | .num n =>
      (if n < 5 then ["durationMins must be at least 5"] else []) ++
      (if n > 240 then ["durationMins must be at most 240"] else [])
  | .undefVal => ["Required"]
  | _      => ["durationMins must be a number"]

/-- Zod check for optional field title: absent is fine; a present string
must have 1 to 200 chars. -/
def titleErrs (v : JVal) : List String :=
  match v with
  | .undefVal => []
  | .str s =>
      (if s.length < 1 then ["String must contain at least 1 character"] else []) ++
      (if s.length > 200 then ["title must be 200 characters or fewer"] else [])
  | _      => ["Expected string"]

/-- Tag a nonempty per-field error list with its field name; empty lists
contribute nothing, as in error.flatten().fieldErrors. -/
def packField (field : String) (errs : List String) :
    List (String × List String) :=
  if errs.isEmpty then [] else [(field, errs)]

/-- All field errors of the canonical record, every violated field
reported (zod checks each object field and aggregates the issues). -/
def fieldErrorsOf (zones : String → Option Zone) (r : JsRecord) :
    List (String × List String) :=
  packField "sessionId" (sessionIdErrs (jsGet r "sessionId")) ++
  packField "name" (nameErrs (jsGet r "name")) ++
  packField "date" (dateErrs (jsGet r "date")) ++
  packField "time" (timeErrs (jsGet r "time")) ++
  packField "timezone" (timezoneErrs zones (jsGet r "timezone")) ++
  packField "durationMins" (durationErrs (jsGet r "durationMins")) ++
  packField "title" (titleErrs (jsGet r "title"))

/-- The fully typed record produced by a successful safeParse. -/
structure ValidInput where
  sessionId    : String
  name         : String
  date         : String
  time         : String
  timezone     : String
  durationMins : Int
  title        : Option String
deriving DecidableEq, Repr

/-- String content of a JVal, for extraction after validation. -/
def asStr : JVal → String
| .str s => s
| _      => ""

/-- Integer content of a JVal, for extraction after validation. -/
def asInt : JVal → Int
| .num n => n
| _      => 0

/-- Result of CreateEventSchema.safeParse: a typed record or the mapping
from field name to list of reasons. -/
inductive ValidationResult
| ok (v : ValidInput)
| err (fieldErrors : List (String × List String))
deriving DecidableEq, Repr

/-- CreateEventSchema.safeParse on the merged record: every field checked,
all violations reported together; on success the trimmed, typed record. -/
def validateCreateEvent (zones : String → Option Zone) (r : JsRecord) :
    ValidationResult :=
  let es := fieldErrorsOf zones r
  if es.isEmpty then
    .ok ⟨asStr (jsGet r "sessionId"),
         strTrim (asStr (jsGet r "name")),
         strTrim (asStr (jsGet r "date")),
         strTrim (asStr (jsGet r "time")),
         asStr (jsGet r "timezone"),
         asInt (jsGet r "durationMins"),
         match jsGet r "title" with
         | .str s => some (strTrim s)
         | _      => none⟩
  else .err es

/-- The AuditStage enum of src/utils/auditLog.ts: the stage at which the
request terminated (received is the initial, non-terminal entry). -/
inductive AuditStage
| received
| validation_error
| past_time
| google_success
| google_error
deriving DecidableEq, Repr

/-- Projection of a CalendarAuditEntry to the fields the verified claims
are about: the correlating requestId, the hashed session id and the
stage. -/
structure AuditEntry where
  requestId     : String
  sessionIdHash : String
  stage         : AuditStage
deriving DecidableEq, Repr

/-- State touched by writeCalendarAuditLog: the append-only audit file and
the operational (stderr) log. -/
structure AuditState where
  file  : List AuditEntry
  opLog : List String
deriving DecidableEq, Repr

/-- writeCalendarAuditLog: appendFileSync wrapped in try/catch.  When the
append fails the entry is dropped and a warning goes to the operational
log; nothing propagates to the caller. -/
def writeAudit (ioFails : Bool) (e : AuditEntry) (st : AuditState) :
    AuditState :=
  if ioFails then
    ⟨st.file, st.opLog ++ ["[auditLog] Failed to write to logs/calendar-audit.jsonl"]⟩
  else
    ⟨st.file ++ [e], st.opLog⟩

/-- Body of the HTTP reply: the enveloped results shape or the plain JSON
object with an error field (used by vapiReply for direct callers, for
success messages as well). -/
inductive RespBody
| results (toolCallId result : String)
| plainError (result : String)
deriving DecidableEq, Repr

/-- An HTTP response: status code plus body. -/
structure Response where
  status : Nat
  body   : RespBody
deriving DecidableEq, Repr

/-- vapiReply of the route: branches on the JS truthiness of toolCallId
(undefined and the empty string are falsy); the httpStatus parameter
defaults to 200 and every call site leaves the default. -/
def vapiReply (toolCallId : Option String) (result : String) : Response :=
  match toolCallId with
  | some tid =>
      if tid == "" then ⟨200, .plainError result⟩
      else ⟨200, .results tid result⟩
  | none => ⟨200, .plainError result⟩

/-- Outcome of the downstream createCalendarEvent call: success, a
GoogleApiError with a status code, or an unexpected thrown error. -/
inductive DownstreamResult
| ok (eventId htmlLink : String)
| apiErr (statusCode : Nat) (msg : String)
| thrown (msg : String)
deriving DecidableEq, Repr

/-- Summary string built from the field errors, as in the route. -/
def summarizeErrors (es : List (String × List String)) : String :=
  String.intercalate "; "
    (es.map (fun p => p.1 ++ ": " ++ String.intercalate ", " p.2))

/-- The POST /api/create-event handler.  Parameters: the runtime zone
database, the session hash function, the process zone offset, the current
instant, the chrono parsing oracle (combined string and reference instant
to parsed instant), the request id, the inbound body, the outcome the
downstream call would produce, and whether audit file appends fail.
Mirrors the source order: received audit entry first, envelope unwrap,
schema validation, chrono parsing against the synthetic reference, the
keepLocalTime zone reattachment, the past-time guard, then the downstream
call; every terminal branch writes one audit entry and replies through
vapiReply.  The branch for an unknown zone after validation mirrors the
startDt.isValid check (stage validation_error); validation makes it
unreachable. -/
def createEvent (zones : String → Option Zone) (hash : String → String)
    (procOffset now : Int) (chronoFn : String → Int → Option Int)
    (reqId : String) (body : Body) (downstream : DownstreamResult)
    (ioFails : Bool) : AuditState × Response :=
  let st0 := writeAudit ioFails ⟨reqId, "--", .received⟩ ⟨[], []⟩
  let merged := mergedOf body
  let tcid := toolCallIdOf body
  match validateCreateEvent zones merged with
  | .err es =>
      let sidHash :=
        match jsGet merged "sessionId" with
        | .str s => if s == "" then "--" else hash s
        | _      => "--"
      (writeAudit ioFails ⟨reqId, sidHash, .validation_error⟩ st0,
       vapiReply tcid ("Validation failed — " ++ summarizeErrors es))
  | .ok v =>
      let sidHash := hash v.sessionId
      let combined := v.date ++ " " ++ v.time
      match zones v.timezone with
      | none =>
          (writeAudit ioFails ⟨reqId, sidHash, .validation_error⟩ st0,
           vapiReply tcid ("Parsed datetime is invalid for timezone " ++ v.timezone))
      | some z =>
          match chronoFn combined (tzAwareRef z procOffset now) with
          | none =>
              (writeAudit ioFails ⟨reqId, sidHash, .validation_error⟩ st0,
               vapiReply tcid ("Could not parse date/time from: " ++ combined ++
                 ". Please provide a recognisable date and time."))
          | some p =>
              let startDt := setZoneKeepLocal ⟨p, ⟨procOffset⟩⟩ z
              if dtLe startDt (LDateTime.setZone ⟨now, ⟨procOffset⟩⟩ z) then
                (writeAudit ioFails ⟨reqId, sidHash, .past_time⟩ st0,
                 vapiReply tcid "The requested time is in the past. Please choose a future date and time.")
              else
                match downstream with
                | .ok _ _ =>
                    (writeAudit ioFails ⟨reqId, sidHash, .google_success⟩ st0,
                     vapiReply tcid "Successfully created the event.")
                | .apiErr _ m =>
                    (writeAudit ioFails ⟨reqId, sidHash, .google_error⟩ st0,
                     vapiReply tcid m)
                | .thrown _ =>
                    (writeAudit ioFails ⟨reqId, sidHash, .google_error⟩ st0,
                     vapiReply tcid "Internal server error. Please try again.")

/-- Lookup in an appended record tries the left part first, as JS property
shadowing does in this representation. -/
theorem rlookup_append (a b : JsRecord) (k : String) :
    rlookup (a ++ b) k = (rlookup a k).or (rlookup b k) := by
  unfold rlookup
  rw [List.find?_append]
  cases a.find? (fun p => p.1 == k) <;> simp [Option.or]

/-- Property access on the merged record: a key present in the argument
object (whatever its value) wins; otherwise sessionId and timezone fall
back to the call metadata, and every other absent key reads undefined. -/
theorem jsGet_mergedOf (b : Body) (k : String) :
    jsGet (mergedOf b) k =
      if (rlookup (rawArgsOf b) k).isSome then jsGet (rawArgsOf b) k
      else if k = "sessionId" then jsGet (callMetaOf b) "sessionId"
      else if k = "timezone" then jsGet (callMetaOf b) "timezone"
      else JVal.undefVal := by
  unfold mergedOf jsGet
  rw [rlookup_append]
  cases h : rlookup (rawArgsOf b) k with
  | some v => simp [Option.or]
  | none =>
      simp only [Option.or, Option.isSome_none, Bool.false_eq_true, if_false]
      by_cases hs : k = "sessionId"
      · subst hs; simp [rlookup]
      · by_cases ht : k = "timezone"
        · subst ht; simp [rlookup]
        · have hs2 : ("sessionId" == k) = false := by
            simp [Ne.symm hs]
          have ht2 : ("timezone" == k) = false := by
            simp [Ne.symm ht]
          simp [rlookup, List.find?, hs, ht, hs2, ht2]

/-- C7: merge law of the Envelope Normalizer.  For a flat payload the
canonical record is observationally the payload itself (every property
access agrees); for an enveloped payload it is the argument object
overlaid on the metadata sessionId and timezone defaults, with every key
present in the argument object winning over metadata.  Normalization is a
total function, so it never fails: missing fields surface only later, at
validation. -/
theorem envelope_normalizer_merge_law :
    (∀ (r : JsRecord) (k : String),
        jsGet (mergedOf (.flat r)) k = jsGet r k) ∧
    (∀ (first : ToolCall) (meta : Option JsRecord) (k : String),
        jsGet (mergedOf (.env first meta)) k =
          if (rlookup (rawArgsOf (.env first meta)) k).isSome then
            jsGet (rawArgsOf (.env first meta)) k
          else if k = "sessionId" then
            jsGet (callMetaOf (.env first meta)) "sessionId"
          else if k = "timezone" then
            jsGet (callMetaOf (.env first meta)) "timezone"
          else JVal.undefVal) := by
  constructor
  · intro r k
    have hra : rawArgsOf (Body.flat r) = r := rfl
    rw [jsGet_mergedOf, hra]
    cases h : rlookup r k with
    | some v => simp [h]
    | none =>
        simp [h, callMetaOf, jsGet, rlookup]
        show JVal.undefVal = (rlookup r k).getD JVal.undefVal
        rw [h]
        rfl
  · intro first meta k
    exact jsGet_mergedOf (.env first meta) k

/-- Concrete zone database used by witnesses and counterexamples: only the
Istanbul zone, at offset +180 minutes. -/
def zonesEx : String → Option Zone :=
  fun s => if s == "Europe/Istanbul" then some ⟨180⟩ else none

/-- Concrete stand-in for the sha256-based session hash. -/
def hashEx : String → String :=
  fun s => "#" ++ s

/-- A syntactically valid UUID (version 4, variant a). -/
def goodUUID : String := "123e4567-e89b-42d3-a456-426614174000"

/-- A flat argument record that passes schema validation. -/
def goodArgs : JsRecord :=
  [("sessionId", .str goodUUID),
   ("name", .str "Alice"),
   ("date", .str "tomorrow"),
   ("time", .str "11 PM"),
   ("timezone", .str "Europe/Istanbul"),
   ("durationMins", .num 30)]

/-- A flat argument record violating the sessionId constraint. -/
def badArgs : JsRecord :=
  [("sessionId", .str "not-a-uuid"),
   ("name", .str "Alice"),
   ("date", .str "tomorrow"),
   ("time", .str "11 PM"),
   ("timezone", .str "Europe/Istanbul"),
   ("durationMins", .num 30)]

/-- A flat argument record whose timezone the zone database rejects. -/
def badZoneArgs : JsRecord :=
  [("sessionId", .str goodUUID),
   ("name", .str "Alice"),
   ("date", .str "tomorrow"),
   ("time", .str "11 PM"),
   ("timezone", .str "Not/AZone"),
   ("durationMins", .num 30)]

/-- Chrono oracle that fails to parse anything. -/
def chronoNone : String → Int → Option Int :=
  fun _ _ => none

/-- Chrono oracle that parses everything to a fixed far-future instant. -/
def chronoOk : String → Int → Option Int :=
  fun _ _ => some 999999

/-- C4 counterexample: the audit stage vocabulary of the code.  With the
clock at instant 1000, a request whose date and time chrono cannot parse
terminates with stage validation_error, and so do a schema violation and
an invalid timezone: the code has no parse_error and no zone_error stage
(AuditStage in src/utils/auditLog.ts), contradicting the claimed terminal
stage set. -/
theorem parse_and_zone_failures_write_validation_error :
    ((createEvent zonesEx hashEx 0 1000 chronoNone "r1" (.flat goodArgs)
        (.ok "ev" "link") false).1.file.map AuditEntry.stage =
      [.received, .validation_error]) ∧
    ((createEvent zonesEx hashEx 0 1000 chronoOk "r1" (.flat badArgs)
        (.ok "ev" "link") false).1.file.map AuditEntry.stage =
      [.received, .validation_error]) ∧
    ((createEvent zonesEx hashEx 0 1000 chronoOk "r1" (.flat badZoneArgs)
        (.ok "ev" "link") false).1.file.map AuditEntry.stage =
      [.received, .validation_error]) := by
  refine ⟨?_, ?_, ?_⟩ <;> rfl

/-- C4 amended: audit state machine as implemented.  Every request (with a
working audit store) writes exactly two entries: first stage received with
the placeholder hash, then exactly one terminal entry whose stage is one
of validation_error (also covering parse and zone failures), past_time,
google_success or google_error, and whose requestId equals the initial
one. -/
theorem audit_two_entries_per_request (zones : String → Option Zone)
    (hash : String → String) (procOffset now : Int)
    (chronoFn : String → Int → Option Int) (reqId : String) (body : Body)
    (downstream : DownstreamResult) :
    ∃ term : AuditEntry,
      (createEvent zones hash procOffset now chronoFn reqId body downstream
          false).1.file =
        [⟨reqId, "--", AuditStage.received⟩, term] ∧
      term.requestId = reqId ∧
      (term.stage = .validation_error ∨ term.stage = .past_time ∨
        term.stage = .google_success ∨ term.stage = .google_error) := by
  simp only [createEvent, writeAudit, Bool.false_eq_true, if_false]
  repeat' split
  all_goals exact ⟨_, rfl, rfl, by simp⟩

/-- C5 counterexample: with the clock at instant 1000, a flat request that
fails validation is answered with HTTP 200 (the claim expects 400), and a
flat request that succeeds downstream is also answered with HTTP 200 (the
claim expects 201): the current router always replies through vapiReply
with the default status. -/
theorem flat_shape_status_ignores_outcome :
    ((createEvent zonesEx hashEx 0 1000 chronoOk "r1" (.flat badArgs)
        (.ok "ev" "link") false).2.status = 200) ∧
    ((createEvent zonesEx hashEx 0 1000 chronoOk "r1" (.flat goodArgs)
        (.ok "ev" "link") false).2.status = 200) :=
  ⟨rfl, rfl⟩

/-- C5 amended: flat shape responses.  Every flat (non-envelope) request
is answered with a structured JSON object carrying a single result string
in its error field, with HTTP status 200 for every outcome category alike
(validation failure, parse failure, past time, downstream failure,
downstream success). -/
theorem flat_shape_reply_always_200 (zones : String → Option Zone)
    (hash : String → String) (procOffset now : Int)
    (chronoFn : String → Int → Option Int) (reqId : String) (r : JsRecord)
    (downstream : DownstreamResult) (ioFails : Bool) :
    ∃ m : String,
      (createEvent zones hash procOffset now chronoFn reqId (.flat r)
          downstream ioFails).2 = ⟨200, .plainError m⟩ := by
  simp only [createEvent]
  repeat' split
  all_goals exact ⟨_, rfl⟩

/-- C6 counterexample: a request that the route detects as the
nested-envelope shape (message.type tool-calls with a nonempty
toolCallList) but whose first tool call carries no id is answered with the
plain JSON shape, not with a results array — the reply branches on the
truthiness of toolCallId, not on envelope detection. -/
theorem envelope_without_id_gets_plain_reply :
    (createEvent zonesEx hashEx 0 1000 chronoOk "r1"
        (.env ⟨none, some goodArgs⟩ none) (.ok "ev" "link") false).2 =
      ⟨200, .plainError "Successfully created the event."⟩ :=
  rfl

/-- C6 amended: enveloped shape responses.  Every enveloped request whose
first tool call carries a nonempty identifier is answered with the body
shape results with the echoed toolCallId and a single result string, and
with HTTP status 200 for every logical outcome alike — success,
validation failure, parse failure, past-time rejection and every
downstream error. -/
theorem envelope_shape_reply_always_200 (zones : String → Option Zone)
    (hash : String → String) (procOffset now : Int)
    (chronoFn : String → Int → Option Int) (reqId : String)
    (first : ToolCall) (meta : Option JsRecord)
    (downstream : DownstreamResult) (ioFails : Bool) (tid : String)
    (hid : first.id = some tid) (hne : tid ≠ "") :
    ∃ m : String,
      (createEvent zones hash procOffset now chronoFn reqId
          (.env first meta) downstream ioFails).2 = ⟨200, .results tid m⟩ := by
  have ht : (tid == "") = false := by
    simpa using hne
  have hv : ∀ m : String,
      vapiReply (toolCallIdOf (.env first meta)) m = ⟨200, .results tid m⟩ := by
    intro m
    simp [vapiReply, toolCallIdOf, hid, ht]
  simp only [createEvent]
  repeat' split
  all_goals exact ⟨_, hv _⟩

/-- C6 witness: the amended statement applied at a concrete enveloped
request with tool call id tc1 and a successful downstream call. -/
theorem envelope_shape_reply_always_200_witness :
    ∃ m : String,
      (createEvent zonesEx hashEx 0 1000 chronoOk "r1"
          (.env ⟨some "tc1", some goodArgs⟩ none) (.ok "ev" "link")
          false).2 = ⟨200, .results "tc1" m⟩ :=
  envelope_shape_reply_always_200 zonesEx hashEx 0 1000 chronoOk "r1"
    ⟨some "tc1", some goodArgs⟩ none (.ok "ev" "link") false "tc1" rfl
    (by decide)

/-- C9: audit write failures are swallowed.  For every request the HTTP
response is identical whether or not appending to the audit store fails,
and when every append fails the store is simply left untouched (the
failure is reported only to the operational log); processing is
unchanged. -/
theorem audit_write_failure_swallowed (zones : String → Option Zone)
    (hash : String → String) (procOffset now : Int)
    (chronoFn : String → Int → Option Int) (reqId : String) (body : Body)
    (downstream : DownstreamResult) (ioFails : Bool) :
    (createEvent zones hash procOffset now chronoFn reqId body downstream
        ioFails).2 =
      (createEvent zones hash procOffset now chronoFn reqId body downstream
        false).2 ∧
    (createEvent zones hash procOffset now chronoFn reqId body downstream
        true).1.file = [] := by
  constructor
  · simp only [createEvent]
    repeat' split
    all_goals rfl
  · simp only [createEvent]
    repeat' split
    all_goals rfl

/-- Helper: safeParse answers with the error mapping exactly when some
field reported a violation. -/
theorem validateCreateEvent_err (zones : String → Option Zone)
    (r : JsRecord) (h : fieldErrorsOf zones r ≠ []) :
    validateCreateEvent zones r = .err (fieldErrorsOf zones r) := by
  cases hfe : fieldErrorsOf zones r with
  | nil => exact absurd hfe h
  | cons a t =>
      simp only [validateCreateEvent, hfe, List.isEmpty_cons,
        Bool.false_eq_true, if_false]

/-- C8: completeness of the validation error report.  For every canonical
record whose sessionId is a string that is not a valid UUID and whose
durationMins is a number outside the range 5 to 240, validation fails and
the resulting field-to-reasons mapping contains an entry for sessionId
and an entry for durationMins — both violated fields, not only the first
one checked. -/
theorem validator_reports_every_violated_field (zones : String → Option Zone)
    (r : JsRecord) (s : String) (n : Int)
    (hsid : jsGet r "sessionId" = .str s) (hbad : isUUIDString s = false)
    (hdur : jsGet r "durationMins" = .num n) (hout : n < 5 ∨ 240 < n) :
    ∃ es, validateCreateEvent zones r = .err es ∧
      (∃ msgs, ("sessionId", msgs) ∈ es) ∧
      (∃ msgs, ("durationMins", msgs) ∈ es) := by
  have h1 : sessionIdErrs (jsGet r "sessionId") =
      ["sessionId must be a valid UUID"] := by
    rw [hsid]
    simp [sessionIdErrs, hbad]
  have h2 : durationErrs (jsGet r "durationMins") ≠ [] := by
    rw [hdur]
    rcases hout with h | h
    · simp [durationErrs, h]
    · have h5 : ¬ n < 5 := by omega
      simp [durationErrs, h5, h]
  have hmem1 : ("sessionId", sessionIdErrs (jsGet r "sessionId")) ∈
      fieldErrorsOf zones r := by
    simp [fieldErrorsOf, packField, h1]
  have hmem2 : ("durationMins", durationErrs (jsGet r "durationMins")) ∈
      fieldErrorsOf zones r := by
    simp [fieldErrorsOf, packField, h2]
  have hne : fieldErrorsOf zones r ≠ [] := by
    intro he
    rw [he] at hmem1
    exact absurd hmem1 (List.not_mem_nil _)
  exact ⟨fieldErrorsOf zones r, validateCreateEvent_err zones r hne,
    ⟨_, hmem1⟩, ⟨_, hmem2⟩⟩

/-- A record violating both the sessionId and the durationMins
constraints. -/
def badBoth : JsRecord :=
  [("sessionId", .str "not-a-uuid"), ("durationMins", .num 300)]

/-- C8 witness: the completeness statement applied to a concrete record
with a non-UUID sessionId and durationMins equal to 300. -/
theorem validator_reports_every_violated_field_witness :
    ∃ es, validateCreateEvent zonesEx badBoth = .err es ∧
      (∃ msgs, ("sessionId", msgs) ∈ es) ∧
      (∃ msgs, ("durationMins", msgs) ∈ es) :=
  validator_reports_every_violated_field zonesEx badBoth "not-a-uuid" 300
    rfl (by decide) rfl (Or.inr (by norm_num))

/-- C10: metadata fallback applies only to absent keys.  In the merge of
an enveloped payload, if the argument object contains the key sessionId
or timezone with a JS null or undefined value, that value overrides the
metadata default (the spread overlays every present key regardless of its
value), and the resulting canonical record then fails schema validation
on that very field instead of falling back to the envelope metadata. -/
theorem null_arg_overrides_metadata_default (first : ToolCall)
    (meta : Option JsRecord) (zones : String → Option Zone) (k : String)
    (v : JVal)
    (hk : k = "sessionId" ∨ k = "timezone")
    (hv : v = JVal.null ∨ v = JVal.undefVal)
    (hlook : rlookup (rawArgsOf (Body.env first meta)) k = some v) :
    jsGet (mergedOf (Body.env first meta)) k = v ∧
    ∃ es, validateCreateEvent zones (mergedOf (Body.env first meta)) = .err es ∧
      ∃ msgs, (k, msgs) ∈ es := by
  have hget : jsGet (mergedOf (Body.env first meta)) k = v := by
    rw [jsGet_mergedOf]
    simp [hlook, jsGet]
  refine ⟨hget, ?_⟩
  have hne : fieldErrorsOf zones (mergedOf (Body.env first meta)) ≠ [] ∧
      ∃ msgs, (k, msgs) ∈ fieldErrorsOf zones (mergedOf (Body.env first meta)) := by
    rcases hk with hk | hk <;> subst hk <;> rcases hv with hv | hv <;>
      subst hv <;> constructor <;>
      simp [fieldErrorsOf, packField, sessionIdErrs, timezoneErrs, hget,
        List.append_eq_nil]
  exact ⟨_, validateCreateEvent_err zones _ hne.1, hne.2⟩

/-- C10 witness: a concrete enveloped request whose argument object
carries sessionId with a JS null value while the metadata carries a valid
UUID; the null wins and validation reports the sessionId field. -/
theorem null_arg_overrides_metadata_default_witness :
    jsGet (mergedOf (Body.env ⟨some "tc1", some [("sessionId", JVal.null)]⟩
        (some [("sessionId", JVal.str goodUUID)]))) "sessionId" = JVal.null ∧
    ∃ es, validateCreateEvent zonesEx
        (mergedOf (Body.env ⟨some "tc1", some [("sessionId", JVal.null)]⟩
          (some [("sessionId", JVal.str goodUUID)]))) = .err es ∧
      ∃ msgs, ("sessionId", msgs) ∈ es :=
  null_arg_overrides_metadata_default
    ⟨some "tc1", some [("sessionId", JVal.null)]⟩
    (some [("sessionId", JVal.str goodUUID)]) zonesEx "sessionId" JVal.null
    (Or.inl rfl) (Or.inl rfl) rfl
